import Mathlib

/-!
Verification development for the OpenCanvas drawing application.

The definitions below are a shallow embedding of the TypeScript source:
  * `src/lib/types.ts`            — element / action / state data model
  * `src/App.tsx`                 — per-document history store (commit, undo,
                                    redo), document session (create, delete)
  * `src/components/canvas.tsx`   — hit testing, drag preview, text commit
  * `src/lib/collaboration.ts`    — collaboration event bus and peer presence

JavaScript numbers are modelled as `Int` (all operations the claims touch are
integer arithmetic on coordinates, sizes and indices).  JavaScript array
indices follow the source exactly, including the `-1` sentinel used for an
empty history cursor.
-/

namespace OpenCanvas

/-- A 2-D point `{x, y}` (types.ts). -/
structure Point where
  x : Int
  y : Int
deriving DecidableEq, Repr

/-- An image element `{url, position, width, height}` (canvas.tsx version of
`ImageElement`). -/
structure ImageElement where
  url : String
  position : Point
  width : Int
  height : Int
deriving DecidableEq, Repr

/-- A text element `{text, position, font, fontSize, color}` (canvas.tsx
`TextElement`). -/
structure TextElement where
  text : String
  position : Point
  font : String
  fontSize : Int
  color : String
deriving DecidableEq, Repr

/-- The tool union type from types.ts. -/
inductive Tool
  | hand
  | pencil
  | eraser
  | text
  | image
  | color
deriving DecidableEq, Repr

/-- A drawing action (types.ts `DrawingAction`, with the optional
`textElement` / `imageElement` fields used by canvas.tsx). -/
structure DrawingAction where
  tool : Tool
  points : List Point
  color : String
  lineWidth : Int
  textElement : Option TextElement := none
  imageElement : Option ImageElement := none
deriving DecidableEq, Repr

/-- A snapshot of the document: `DrawingState = {actions, currentAction}`
(types.ts). -/
structure DrawingState where
  actions : List DrawingAction
  currentAction : Option DrawingAction := none
deriving DecidableEq, Repr

/-- The empty snapshot `{ actions: [], currentAction: null }` used as the
default whenever `history[historyIndex]` is undefined. -/
def emptyState : DrawingState := { actions := [], currentAction := none }

/-- A document history: `history` array plus `historyIndex` cursor
(App.tsx `Document`, restricted to the history fields the store operates
on; `-1` denotes the empty history). -/
structure Doc where
  history : List DrawingState
  historyIndex : Int
deriving DecidableEq, Repr

/-- A freshly created document: `history: [], historyIndex: -1`
(App.tsx `handleNewDocument`). -/
def freshDoc : Doc := { history := [], historyIndex := -1 }

/-- Committing a full `DrawingState` (App.tsx `handleStateChange`, the
`'actions' in update` branch, lines 253-257):
`nextHistory = [...history.slice(0, historyIndex + 1), newState]`,
`nextHistoryIndex = nextHistory.length - 1`. -/
def handleStateChange (d : Doc) (newState : DrawingState) : Doc :=
  let nextHistory := d.history.take (d.historyIndex + 1).toNat ++ [newState]
  { history := nextHistory, historyIndex := (nextHistory.length : Int) - 1 }

/-- Undo (App.tsx `handleUndo`, lines 281-291): a no-op unless
`currentHistoryIndex > 0`, otherwise decrements the cursor. -/
def handleUndo (d : Doc) : Doc :=
  if d.historyIndex ≤ 0 then d
  else { d with historyIndex := d.historyIndex - 1 }

/-- Redo (App.tsx `handleRedo`, lines 294-304): a no-op unless
`currentHistoryIndex < currentHistory.length - 1`, otherwise increments the
cursor. -/
def handleRedo (d : Doc) : Doc :=
  if d.historyIndex ≥ (d.history.length : Int) - 1 then d
  else { d with historyIndex := d.historyIndex + 1 }

/-- The `canUndo` affordance passed to the toolbar
(`canUndo={currentHistoryIndex > 0}`, App.tsx line 653). -/
def canUndo (d : Doc) : Bool := d.historyIndex > 0

/-- The `canRedo` affordance passed to the toolbar
(`canRedo={currentHistoryIndex < currentHistory.length - 1}`, App.tsx
line 654). -/
def canRedo (d : Doc) : Bool := d.historyIndex < (d.history.length : Int) - 1

/-- `history[historyIndex]` as an option: `none` when the cursor is out of
range (in JavaScript the access yields `undefined`). -/
def stateAt (d : Doc) : Option DrawingState :=
  if d.historyIndex < 0 then none
  else d.history[d.historyIndex.toNat]?

/-- The current snapshot: `history[historyIndex] ?? {actions: [],
currentAction: null}` — the pattern canvas.tsx uses everywhere it reads the
current state. -/
def currentState (d : Doc) : DrawingState :=
  (stateAt d).getD emptyState

/-- Iterated commit: fold a list of snapshots through `handleStateChange`. -/
def commitAll (d : Doc) : List DrawingState → Doc
  | [] => d
  | s :: rest => commitAll (handleStateChange d s) rest

/-- Iterated undo. -/
def undoN (d : Doc) : Nat → Doc
  | 0 => d
  | n + 1 => undoN (handleUndo d) n

/-- Iterated redo. -/
def redoN (d : Doc) : Nat → Doc
  | 0 => d
  | n + 1 => redoN (handleRedo d) n

/-- The stroke of the spec scenario: points `[(0,0),(10,10)]`, color
`#000000`, width 5. -/
def strokeAction : DrawingAction :=
  { tool := Tool.pencil, points := [⟨0, 0⟩, ⟨10, 10⟩],
    color := "#000000", lineWidth := 5 }

/-- The snapshot committed after drawing `strokeAction` on a fresh
document. -/
def strokeState : DrawingState :=
  { actions := [strokeAction], currentAction := none }

/-! ### Hit testing (canvas.tsx lines 322-336) -/

/-- The containment test of `hitTest`:
`point.x >= position.x && point.x <= position.x + width &&
 point.y >= position.y && point.y <= position.y + height`. -/
def pointInImage (p : Point) (img : ImageElement) : Bool :=
  p.x ≥ img.position.x && p.x ≤ img.position.x + img.width &&
  p.y ≥ img.position.y && p.y ≤ img.position.y + img.height

/-- The loop-body test of `hitTest`: the action has an `imageElement` whose
rectangle contains the point. -/
def imageHit (p : Point) (a : DrawingAction) : Bool :=
  match a.imageElement with
  | some img => pointInImage p img
  | none => false

/-- The backwards scan of `hitTest`
(`for (let i = actions.length - 1; i >= 0; i--) ...`): the recursion
consults the tail — the higher indices — first, so the topmost match
wins. -/
def findHit (p : Point) : List DrawingAction → Option DrawingAction
  | [] => none
  | a :: rest =>
    match findHit p rest with
    | some hit => some hit
    | none => if imageHit p a then some a else none

/-- canvas.tsx `hitTest`: `null` when `history[historyIndex]` is undefined,
otherwise the backwards scan over its `actions`. -/
def hitTest (d : Doc) (p : Point) : Option DrawingAction :=
  match stateAt d with
  | none => none
  | some st => findHit p st.actions

/-! ### Object-reference (aliasing) model for drag previews
(canvas.tsx `draw` lines 455-529 and `stopDrawing` lines 531-600)

`selectedImage` holds a reference to an action object inside the committed
snapshot (`hitTest` returns the action itself), and the drag branch of
`draw` executes `selectedImage.imageElement.position.x += dx; ... += dy` —
an in-place mutation of the element object.  To express this in a pure
setting, image-element objects live on an explicit heap and actions store a
heap reference; mutation becomes a heap update, and whatever holds the same
reference observes it. -/

/-- The heap of image-element objects; a cell index models a JavaScript
object reference. -/
structure Heap where
  images : List ImageElement
deriving DecidableEq, Repr

/-- A drawing action whose `imageElement` field is a reference into the
heap (the other fields as in `DrawingAction`). -/
structure ActionRef where
  tool : Tool
  points : List Point
  color : String
  lineWidth : Int
  imageRef : Option Nat := none
deriving DecidableEq, Repr

/-- Update one heap cell in place (out-of-range indices leave the heap
unchanged). -/
def modifyCell : List ImageElement → Nat → (ImageElement → ImageElement) → List ImageElement
  | [], _, _ => []
  | c :: l, 0, f => f c :: l
  | c :: l, n + 1, f => c :: modifyCell l n f

/-- `position.x += dx; position.y += dy` applied to one image element. -/
def translateImg (dx dy : Int) (img : ImageElement) : ImageElement :=
  { img with position := ⟨img.position.x + dx, img.position.y + dy⟩ }

/-- One pointer-move of the image-dragging branch of `draw` (canvas.tsx
lines 484-489): the element object referenced by the selected action is
mutated in place on the heap. -/
def dragPreviewStep (h : Heap) (selectedRef : Nat) (dx dy : Int) : Heap :=
  ⟨modifyCell h.images selectedRef (translateImg dx dy)⟩

/-- Read an action through its reference: the current value of its
image-element object, `none` for non-image actions or dangling
references. -/
def derefImage (h : Heap) (a : ActionRef) : Option ImageElement :=
  a.imageRef.bind (fun r => h.images[r]?)

/-- The observable value of a snapshot: each action dereferenced through
the heap. -/
def derefSnapshot (h : Heap) (s : List ActionRef) : List (Option ImageElement) :=
  s.map (derefImage h)

/-- The pointer-up commit of `stopDrawing` (canvas.tsx lines 560-571):
`actions.map(action => action === selectedImage ? { ...selectedImage } :
action)` — the shallow spread allocates a new action wrapper but copies the
`imageElement` field as-is, so the new snapshot holds the same element
reference. -/
def commitDraggedActions (actions : List ActionRef) (selected : ActionRef) :
    List ActionRef :=
  actions.map (fun a => if a = selected then selected else a)

/-! ### Text commit (canvas.tsx `saveActiveText` lines 43-78,
`handleDoubleClick` lines 715-772) -/

/-- The `activeTextInput` component state `{position, initialValue, width?,
height?}`; `width`/`height` are display-only metrics from `measureText`
and are never read by `saveActiveText`. -/
structure ActiveTextInput where
  position : Point
  initialValue : String
  width : Option Int := none
  height : Option Int := none
deriving DecidableEq, Repr

/-- JavaScript `String.prototype.trim`: strip leading and trailing
whitespace (written over the character list so that it evaluates by
kernel reduction). -/
def jsTrim (s : String) : String :=
  String.mk (((s.toList.dropWhile Char.isWhitespace).reverse.dropWhile
      Char.isWhitespace).reverse)

/-- The outcome of one `saveActiveText` call: the snapshot committed via
`onStateChange` (if any), the `activeTextInput` state afterwards, and the
input field value afterwards. -/
structure SaveTextResult where
  committed : Option DrawingState
  active : Option ActiveTextInput
  inputValue : String
deriving DecidableEq, Repr

/-- canvas.tsx `saveActiveText` (lines 43-78).  The guard requires the
input ref, the canvas context and `activeTextInput` to be present and the
value to be non-blank; an unchanged re-edit value deactivates without
committing; otherwise a new text action is appended to the current snapshot
and committed.  The final `setActiveTextInput(null)` runs on every path,
so the editor is always deactivated. -/
def saveActiveText (inputValue : String) (active : Option ActiveTextInput)
    (font : String) (fontSize : Int) (color : String)
    (cur : DrawingState) : SaveTextResult :=
  match active with
  | some ati =>
    if jsTrim inputValue ≠ "" then
      if inputValue = ati.initialValue ∧ ati.initialValue ≠ "" then
        { committed := none, active := none, inputValue := inputValue }
      else
        let textElement : TextElement :=
          { text := inputValue, position := ati.position, font := font,
            fontSize := fontSize, color := color }
        { committed := some
            { actions := cur.actions ++
                [{ tool := Tool.text, points := [], color := color,
                   lineWidth := 0, textElement := some textElement,
                   imageElement := none }],
              currentAction := none },
          active := none, inputValue := "" }
    else
      { committed := none, active := none, inputValue := inputValue }
  | none => { committed := none, active := none, inputValue := inputValue }

/-- The re-edit path of `handleDoubleClick` (canvas.tsx lines 729-760): the
hit Text action is filtered out of the current snapshot — which is
committed as a new state — and the editor is activated pre-filled with the
old content at the old position. -/
def beginReEdit (cur : DrawingState) (hit : DrawingAction) (te : TextElement) :
    DrawingState × ActiveTextInput :=
  (⟨cur.actions.filter (fun a => a ≠ hit), none⟩,
   { position := te.position, initialValue := te.text })

/-! ### Document session (App.tsx lines 307-350) -/

/-- App.tsx `Document`: `{id, name, history, historyIndex}`. -/
structure AppDoc where
  id : String
  name : String
  history : List DrawingState
  historyIndex : Int
deriving DecidableEq, Repr

/-- The document-related top-level state: the document list and the id of
the active document. -/
structure Session where
  documents : List AppDoc
  currentDocumentId : Option String
deriving DecidableEq, Repr

/-- App.tsx `handleDeleteDocument` (lines 329-350): filter the document
out; if the list became empty, keep it empty and clear the current id;
otherwise, if the deleted document was current, switch to the first
remaining one. -/
def handleDeleteDocument (s : Session) (docId : String) : Session :=
  match s.documents.filter (fun d => d.id ≠ docId) with
  | [] => { documents := [], currentDocumentId := none }
  | d :: rest =>
    if s.currentDocumentId = some docId then
      { documents := d :: rest, currentDocumentId := some d.id }
    else
      { documents := d :: rest, currentDocumentId := s.currentDocumentId }

/-! ### Collaboration service (src/lib/collaboration.ts) -/

/-- `CollaborationUser = {id, name, color}`. -/
structure CollaborationUser where
  id : String
  name : String
  color : String
deriving DecidableEq, Repr

/-- A collaboration envelope `{type, userId, data, timestamp}`.  The `data`
payload is untyped in the source; only presence envelopes (`user_join`,
`user_leave`) have it inspected — as a `CollaborationUser` — so it is
modelled at that type and carried opaquely by all other event types. -/
structure CollaborationEvent where
  type : String
  userId : String
  data : CollaborationUser
  timestamp : Int
deriving DecidableEq, Repr

/-- JavaScript `Map.set`: replace the value in place when the key is
present, append the entry otherwise. -/
def mapSet (m : List (String × CollaborationUser)) (k : String)
    (v : CollaborationUser) : List (String × CollaborationUser) :=
  if m.any (fun p => p.1 = k) then
    m.map (fun p => if p.1 = k then (k, v) else p)
  else m ++ [(k, v)]

/-- JavaScript `Map.delete`. -/
def mapDelete (m : List (String × CollaborationUser)) (k : String) :
    List (String × CollaborationUser) :=
  m.filter (fun p => p.1 ≠ k)

/-- Number of entries of the map carrying a given key. -/
def countKey (m : List (String × CollaborationUser)) (k : String) : Nat :=
  (m.filter (fun p => p.1 = k)).length

/-- The mutable fields of the `CollaborationService` class.
`storageListenerInstalled` / `pollTimerInstalled` record whether
`setupStorageListener` has attached its `storage` event listener and
started its `setInterval` poll; the source keeps no handle to either
(the interval id returned by `setInterval` on line 247 is discarded), so
no later operation can detach them. -/
structure CollabState where
  shareId : Option String
  currentUser : Option CollaborationUser
  connectedUsers : List (String × CollaborationUser)
  broadcastChannelOpen : Bool
  websocketOpen : Bool
  storageListenerInstalled : Bool
  pollTimerInstalled : Bool
deriving DecidableEq, Repr

/-- A listener invocation performed while handling an inbound envelope:
either the `onUsersChange` callbacks (with their payload) or the `onEvent`
callbacks. -/
inductive CallbackCall
  | usersChange (users : List CollaborationUser)
  | event (e : CollaborationEvent)
deriving DecidableEq, Repr

/-- `triggerUsersChange` payload (lines 329-342): the connected users with
the local user pushed at the end. -/
def usersChangePayload (st : CollabState) : List CollaborationUser :=
  st.connectedUsers.map (fun p => p.2) ++
    (match st.currentUser with
     | some u => [u]
     | none => [])

/-- collaboration.ts `handleCollaborationEvent` (lines 302-317): envelopes
from the local user are ignored; `user_join` / `user_leave` fold into the
peer map and notify presence listeners; everything else is forwarded to
event listeners. -/
def handleCollaborationEvent (st : CollabState) (e : CollaborationEvent) :
    CollabState × List CallbackCall :=
  if st.currentUser.map (fun u => u.id) = some e.userId then (st, [])
  else if e.type = "user_join" then
    let st2 := { st with connectedUsers := mapSet st.connectedUsers e.userId e.data }
    (st2, [CallbackCall.usersChange (usersChangePayload st2)])
  else if e.type = "user_leave" then
    let st2 := { st with connectedUsers := mapDelete st.connectedUsers e.userId }
    (st2, [CallbackCall.usersChange (usersChangePayload st2)])
  else (st, [CallbackCall.event e])

/-- collaboration.ts `setupStorageListener` (lines 230-250): attaches the
`storage` event listener and starts the 1-second `setInterval` poll,
keeping no handle to either. -/
def setupStorageListener (st : CollabState) : CollabState :=
  { st with storageListenerInstalled := true, pollTimerInstalled := true }

/-- The envelope emitted by the `broadcastEvent` call inside `disconnect`
(lines 144-149): a `user_leave` for the local user, provided `broadcastEvent`
passes its own guard `if (!this.currentUser || !this.shareId) return`. -/
def broadcastLeaveEnvelope (st : CollabState) (now : Int) : List CollaborationEvent :=
  match st.currentUser, st.shareId with
  | some u, some _ => [{ type := "user_leave", userId := u.id, data := u, timestamp := now }]
  | _, _ => []

/-- collaboration.ts `disconnect` (lines 142-167): announce the leave,
close the `BroadcastChannel` and the `WebSocket`, clear the peer map, the
share id and the local user.  Nothing touches the storage listener or the
poll interval. -/
def disconnect (st : CollabState) (now : Int) : CollabState × List CollaborationEvent :=
  ({ st with broadcastChannelOpen := false, websocketOpen := false,
             connectedUsers := [], shareId := none, currentUser := none },
   broadcastLeaveEnvelope st now)

/-! ### Stored-event cleanup (collaboration.ts `broadcastEvent` lines
89-119 and `cleanupOldEvents` lines 278-300) -/

/-- JavaScript `String.prototype.split` with a single-character separator,
over the character list (`'a_b'.split('_') = ['a','b']`, `'_a'.split('_')
= ['', 'a']`, `''.split('_') = ['']`). -/
def splitOnChar (sep : Char) : List Char → List (List Char)
  | [] => [[]]
  | c :: rest =>
    if c = sep then [] :: splitOnChar sep rest
    else
      match splitOnChar sep rest with
      | h :: t => (c :: h) :: t
      | [] => [[c]]

/-- JavaScript `parseInt(s) || 0` on the strings at hand (no sign, no
leading whitespace): the value of the leading run of decimal digits, with
`NaN` (no leading digit) collapsing to `0`. -/
def parseIntOr0 (cs : List Char) : Nat :=
  let ds := cs.takeWhile Char.isDigit
  if ds = [] then 0
  else ds.foldl (fun acc c => 10 * acc + (c.toNat - ('0').toNat)) 0

/-- The sort key of `cleanupOldEvents` (line 288):
`parseInt(key.split('_')[3]) || 0` (an out-of-range index is `undefined`,
which also parses to `NaN` and collapses to `0`). -/
def sortTime (key : String) : Nat :=
  parseIntOr0 ((splitOnChar ('_') key.toList).getD 3 [])

/-- JavaScript `String.prototype.startsWith`, over the character lists. -/
def charListStarts : List Char → List Char → Bool
  | _, [] => true
  | [], _ :: _ => false
  | c :: s, d :: pre => c = d && charListStarts s pre

/-- `key.startsWith(stem)` as used by the key filters. -/
def jsStartsWith (s stem : String) : Bool :=
  charListStarts s.toList stem.toList

/-- Stable insertion for descending `sortTime` order, modelling the stable
ECMAScript `Array.prototype.sort` with comparator `(a, b) => timeB -
timeA`. -/
def insertByTimeDesc (k : String) : List String → List String
  | [] => [k]
  | a :: l => if sortTime a ≤ sortTime k then k :: a :: l else a :: insertByTimeDesc k l

/-- Stable sort by descending `sortTime`. -/
def sortByTimeDesc : List String → List String
  | [] => []
  | a :: l => insertByTimeDesc a (sortByTimeDesc l)

/-- The storage-key stem for envelopes of one share id:
`STORAGE_KEY_PREFIX + 'event_' + shareId + '_'`. -/
def eventKeyBase (shareId : String) : String :=
  "opencanvas_collab_" ++ "event_" ++ shareId ++ "_"

/-- The key `broadcastEvent` writes an envelope under (line 99): the stem
followed by the decimal rendering of `Date.now()` and the `Math.random()`
nonce. -/
def makeEventKey (shareId tsStr nonce : String) : String :=
  eventKeyBase shareId ++ tsStr ++ "_" ++ nonce

/-- collaboration.ts `cleanupOldEvents` (lines 278-300): filter this share
id's event keys out of the localStorage keys (given in enumeration order),
sort them by the comparator above, keep the first 10 and remove the rest.
Returns (kept keys, removed keys). -/
def cleanupOldEvents (shareId : String) (allKeys : List String) :
    List String × List String :=
  let eventKeys := allKeys.filter (fun k => jsStartsWith k (eventKeyBase shareId))
  let sortedKeys := sortByTimeDesc eventKeys
  (sortedKeys.take 10, sortedKeys.drop 10)

/-! ### Concrete fixtures used by witnesses and counterexamples -/

/-- A text element with content `old`. -/
def oldTe : TextElement :=
  { text := "old", position := ⟨1, 2⟩, font := "Arial", fontSize := 16,
    color := "#000000" }

/-- A committed text action holding `oldTe`. -/
def textHitAction : DrawingAction :=
  { tool := Tool.text, points := [], color := "#000000", lineWidth := 0,
    textElement := some oldTe, imageElement := none }

/-- A session whose only document is an empty `doc_1`. -/
def soleDoc : AppDoc :=
  { id := "doc_1", name := "Document 1", history := [], historyIndex := -1 }

/-- A committed image action covering the rectangle `(0,0)-(10,10)`. -/
def imgActA : DrawingAction :=
  { tool := Tool.image, points := [], color := "", lineWidth := 0,
    textElement := none, imageElement := some ⟨"a", ⟨0, 0⟩, 10, 10⟩ }

/-- A committed image action covering the rectangle `(5,5)-(15,15)`,
overlapping `imgActA`. -/
def imgActB : DrawingAction :=
  { tool := Tool.image, points := [], color := "", lineWidth := 0,
    textElement := none, imageElement := some ⟨"b", ⟨5, 5⟩, 10, 10⟩ }

/-- A collaboration state as it stands after `generateShareLink` plus
`setupCommunication` in a session with one connected peer. -/
def connectedState : CollabState :=
  setupStorageListener
    { shareId := some "share_abc",
      currentUser := some ⟨"user_1", "Host", "#FF6B6B"⟩,
      connectedUsers := [("user_2", ⟨"user_2", "Guest", "#4ECDC4"⟩)],
      broadcastChannelOpen := true, websocketOpen := false,
      storageListenerInstalled := false, pollTimerInstalled := false }

/-- A join envelope from a third user. -/
def joinEnvelope : CollaborationEvent :=
  { type := "user_join", userId := "user_3",
    data := ⟨"user_3", "Guest", "#45B7D1"⟩, timestamp := 500 }

/-- A non-presence envelope carrying the local user id — the echo of a
locally published event arriving back through a transport. -/
def selfEnvelope : CollaborationEvent :=
  { type := "drawing_action", userId := "user_1",
    data := ⟨"user_1", "Host", "#FF6B6B"⟩, timestamp := 600 }

/-- Eleven stored event keys for `share_ab`, embedded timestamps 0..10, in
enumeration order oldest first. -/
def elevenEventKeys : List String :=
  [makeEventKey "share_ab" "0" "n", makeEventKey "share_ab" "1" "n",
   makeEventKey "share_ab" "2" "n", makeEventKey "share_ab" "3" "n",
   makeEventKey "share_ab" "4" "n", makeEventKey "share_ab" "5" "n",
   makeEventKey "share_ab" "6" "n", makeEventKey "share_ab" "7" "n",
   makeEventKey "share_ab" "8" "n", makeEventKey "share_ab" "9" "n",
   makeEventKey "share_ab" "10" "n"]

/-! ### History-store lemmas -/

theorem handleStateChange_aligned (h : List DrawingState) (s : DrawingState) :
    handleStateChange ⟨h, (h.length : Int) - 1⟩ s = ⟨h ++ [s], (h.length : Int)⟩ := by
  have h1 : ((h.length : Int) - 1 + 1).toNat = h.length := by omega
  simp [handleStateChange, h1]

theorem commitAll_aligned (ss h : List DrawingState) :
    commitAll ⟨h, (h.length : Int) - 1⟩ ss = ⟨h ++ ss, ((h ++ ss).length : Int) - 1⟩ := by
  induction ss generalizing h with
  | nil => simp [commitAll]
  | cons s rest ih =>
    rw [commitAll, handleStateChange_aligned]
    have e1 : (h.length : Int) = ((h ++ [s]).length : Int) - 1 := by simp
    rw [e1, ih (h ++ [s])]
    simp

theorem commitAll_fresh (ss : List DrawingState) :
    commitAll freshDoc ss = ⟨ss, (ss.length : Int) - 1⟩ := by
  have e : freshDoc = ⟨([] : List DrawingState), (([] : List DrawingState).length : Int) - 1⟩ := by
    simp [freshDoc]
  rw [e, commitAll_aligned]
  simp

theorem undoN_eval (hist : List DrawingState) (U : Nat) :
    ∀ (i : Int), 0 ≤ i → undoN ⟨hist, i⟩ U = ⟨hist, max 0 (i - U)⟩ := by
  induction U with
  | zero =>
    intro i hi
    rw [undoN]
    congr 1
    omega
  | succ n ih =>
    intro i hi
    rw [undoN, handleUndo]
    by_cases hc : i ≤ 0
    · rw [if_pos hc, ih i hi]
      congr 1
      push_cast
      omega
    · rw [if_neg hc]
      change undoN ⟨hist, i - 1⟩ n = _
      rw [ih (i - 1) (by omega)]
      congr 1
      push_cast
      omega

theorem redoN_eval (hist : List DrawingState) (R : Nat) :
    ∀ (i : Int), i ≤ (hist.length : Int) - 1 →
      redoN ⟨hist, i⟩ R = ⟨hist, min ((hist.length : Int) - 1) (i + R)⟩ := by
  induction R with
  | zero =>
    intro i hi
    rw [redoN]
    congr 1
    omega
  | succ n ih =>
    intro i hi
    rw [redoN, handleRedo]
    by_cases hc : i ≥ (hist.length : Int) - 1
    · rw [if_pos hc, ih i hi]
      congr 1
      push_cast
      omega
    · rw [if_neg hc]
      change redoN ⟨hist, i + 1⟩ n = _
      rw [ih (i + 1) (by omega)]
      congr 1
      push_cast
      omega

theorem currentState_mk (hist : List DrawingState) (i : Int) (h0 : 0 ≤ i) :
    currentState ⟨hist, i⟩ = (hist[i.toNat]?).getD emptyState := by
  simp [currentState, stateAt, show ¬ i < 0 by omega]

/-- C1 counterexample: committing exactly one stroke to a fresh document
does NOT give `canUndo = true`, and a single `undo()` does NOT make the
current snapshot empty (the guard `historyIndex <= 0` makes it a no-op at
cursor 0), refuting the claim at `N = 1`, `U = 1`, `R = 0`. -/
theorem undo_first_commit_claim_false :
    ¬ (canUndo (handleStateChange freshDoc strokeState) = true ∧
       (currentState (handleUndo (handleStateChange freshDoc strokeState))).actions.length = 0) := by
  decide

/-- C1 (amended): for `N` commits followed by `U` undos and `R` redos with
`U ≤ N - 1` (the undo guard `historyIndex <= 0` stops the cursor at the
first committed snapshot) and `R ≤ U`, the current snapshot equals the one
live after `N - U + R` commits; after committing exactly one stroke to a
fresh document, `canUndo` is `false`, `undo()` is a no-op, and the current
snapshot still holds the single stroke. -/
theorem history_invariant_guarded (ss : List DrawingState) (U R : Nat)
    (hU : U < ss.length) (hR : R ≤ U) :
    currentState (redoN (undoN (commitAll freshDoc ss) U) R)
      = currentState (commitAll freshDoc (ss.take (ss.length - U + R))) ∧
    canUndo (handleStateChange freshDoc strokeState) = false ∧
    handleUndo (handleStateChange freshDoc strokeState)
      = handleStateChange freshDoc strokeState ∧
    (currentState (handleStateChange freshDoc strokeState)).actions.length = 1 := by
  refine ⟨?_, by decide, by decide, by decide⟩
  rw [commitAll_fresh, commitAll_fresh]
  rw [undoN_eval _ _ _ (by omega)]
  rw [redoN_eval _ _ _ (by omega)]
  have hkl : (ss.take (ss.length - U + R)).length = ss.length - U + R := by
    rw [List.length_take]
    omega
  rw [hkl]
  rw [currentState_mk _ _ (by omega),
      currentState_mk _ _ (by push_cast; omega)]
  congr 1
  rw [List.getElem?_take_of_lt (by push_cast; omega)]
  congr 1
  push_cast
  omega

/-- Witness for `history_invariant_guarded` at three commits, two undos,
one redo. -/
theorem history_invariant_guarded_witness :
    (2 < ([emptyState, strokeState, ⟨[strokeAction, strokeAction], none⟩] :
        List DrawingState).length ∧ 1 ≤ 2) ∧
    currentState (redoN (undoN (commitAll freshDoc
        [emptyState, strokeState, ⟨[strokeAction, strokeAction], none⟩]) 2) 1)
      = currentState (commitAll freshDoc
          (([emptyState, strokeState, ⟨[strokeAction, strokeAction], none⟩] :
              List DrawingState).take
            (([emptyState, strokeState, ⟨[strokeAction, strokeAction], none⟩] :
                List DrawingState).length - 2 + 1))) :=
  ⟨⟨by decide, by decide⟩,
    (history_invariant_guarded
      [emptyState, strokeState, ⟨[strokeAction, strokeAction], none⟩] 2 1
      (by decide) (by decide)).1⟩

/-- C3: committing while the cursor is strictly before the last index
truncates everything after the cursor, puts the new snapshot at the new
last index, and immediately afterwards `canRedo` is `false` and `redo()`
is a no-op. -/
theorem commit_truncates_redo (d : Doc) (s : DrawingState)
    (h : d.historyIndex < (d.history.length : Int) - 1) :
    (handleStateChange d s).history
        = d.history.take (d.historyIndex + 1).toNat ++ [s] ∧
    (handleStateChange d s).historyIndex
        = ((handleStateChange d s).history.length : Int) - 1 ∧
    currentState (handleStateChange d s) = s ∧
    canRedo (handleStateChange d s) = false ∧
    handleRedo (handleStateChange d s) = handleStateChange d s := by
  have hsc : handleStateChange d s
      = ⟨d.history.take (d.historyIndex + 1).toNat ++ [s],
         ((d.history.take (d.historyIndex + 1).toNat ++ [s]).length : Int) - 1⟩ := rfl
  have hlen1 : (d.history.take (d.historyIndex + 1).toNat ++ [s]).length
      = (d.history.take (d.historyIndex + 1).toNat).length + 1 := by simp
  refine ⟨by rw [hsc], by rw [hsc], ?_, ?_, ?_⟩
  · rw [hsc, currentState_mk _ _ (by rw [hlen1]; push_cast; omega)]
    have e : ((((d.history.take (d.historyIndex + 1).toNat ++ [s]).length) : Int) - 1).toNat
        = (d.history.take (d.historyIndex + 1).toNat).length := by
      rw [hlen1]
      omega
    rw [e, List.getElem?_concat_length]
    rfl
  · rw [hsc, canRedo]
    exact decide_eq_false (lt_irrefl _)
  · rw [hsc, handleRedo, if_pos (le_refl _)]

/-- Witness for `commit_truncates_redo` on a two-snapshot history with the
cursor at 0. -/
theorem commit_truncates_redo_witness :
    ((⟨[strokeState, emptyState], 0⟩ : Doc).historyIndex
        < (((⟨[strokeState, emptyState], 0⟩ : Doc).history.length : Int) - 1)) ∧
    (handleStateChange ⟨[strokeState, emptyState], 0⟩ strokeState).history
      = ([strokeState, emptyState] : List DrawingState).take ((0 : Int) + 1).toNat
          ++ [strokeState] :=
  ⟨by decide,
    (commit_truncates_redo ⟨[strokeState, emptyState], 0⟩ strokeState (by decide)).1⟩

/-! ### Hit-test lemmas -/

theorem findHit_eq_none (p : Point) (l : List DrawingAction)
    (h : ∀ b ∈ l, imageHit p b = false) : findHit p l = none := by
  induction l with
  | nil => rfl
  | cons a l ih =>
    rw [findHit, ih (fun b hb => h b (List.mem_cons_of_mem a hb))]
    rw [h a (List.mem_cons_self a l)]
    rfl

theorem findHit_append (p : Point) (l r : List DrawingAction) :
    findHit p (l ++ r) = (findHit p r).or (findHit p l) := by
  induction l with
  | nil =>
    simp [findHit]
  | cons a l ih =>
    rw [List.cons_append, findHit, ih, findHit]
    cases findHit p r <;> simp [Option.or]

/-- C5: when the current snapshot decomposes as
`l₁ ++ ai :: l₂ ++ aj :: l₃` — image actions `ai` at index `i = l₁.length`
and `aj` at index `j = l₁.length + l₂.length + 1 > i`, both containing the
point — and nothing above index `j` hits the point, `hitTest` returns the
element at index `j`: the scan is back to front and the first match
wins. -/
theorem hitTest_topmost_wins (d : Doc) (p : Point) (st : DrawingState)
    (l₁ l₂ l₃ : List DrawingAction) (ai aj : DrawingAction)
    (imgi imgj : ImageElement)
    (hstate : stateAt d = some st)
    (hacts : st.actions = l₁ ++ ai :: l₂ ++ aj :: l₃)
    (hi : ai.imageElement = some imgi) (hpi : pointInImage p imgi = true)
    (hj : aj.imageElement = some imgj) (hpj : pointInImage p imgj = true)
    (habove : ∀ b ∈ l₃, imageHit p b = false) :
    hitTest d p = some aj := by
  have htop : findHit p (aj :: l₃) = some aj := by
    rw [findHit, findHit_eq_none p l₃ habove]
    simp [imageHit, hj, hpj]
  have hre : l₁ ++ ai :: l₂ ++ aj :: l₃ = (l₁ ++ ai :: l₂) ++ (aj :: l₃) := by
    simp
  simp only [hitTest, hstate, hacts, hre, findHit_append, htop, Option.or]

/-- Witness for `hitTest_topmost_wins`: two overlapping images, the point
`(6,6)` inside both, the topmost (`imgActB`) is returned. -/
theorem hitTest_topmost_wins_witness :
    (stateAt (⟨[⟨[imgActA, imgActB], none⟩], 0⟩ : Doc)
        = some ⟨[imgActA, imgActB], none⟩ ∧
      ([imgActA, imgActB] : List DrawingAction)
        = [] ++ imgActA :: [] ++ imgActB :: []) ∧
    hitTest (⟨[⟨[imgActA, imgActB], none⟩], 0⟩ : Doc) ⟨6, 6⟩ = some imgActB :=
  ⟨⟨rfl, rfl⟩,
    hitTest_topmost_wins _ _ _ [] [] [] imgActA imgActB
      ⟨"a", ⟨0, 0⟩, 10, 10⟩ ⟨"b", ⟨5, 5⟩, 10, 10⟩ rfl rfl rfl (by decide)
      rfl (by decide) (fun b hb => absurd hb (List.not_mem_nil b))⟩

/-! ### Aliasing lemmas for the drag preview -/

theorem modifyCell_getElem? (l : List ImageElement) (n k : Nat)
    (f : ImageElement → ImageElement) :
    (modifyCell l n f)[k]? = if k = n then (l[k]?).map f else l[k]? := by
  induction l generalizing n k with
  | nil => simp [modifyCell]
  | cons c l ih =>
    cases n with
    | zero =>
      cases k with
      | zero => simp [modifyCell]
      | succ k => simp [modifyCell]
    | succ n =>
      cases k with
      | zero => simp [modifyCell]
      | succ k => simp [modifyCell, ih]

theorem derefImage_drag (h : Heap) (r : Nat) (dx dy : Int) (a : ActionRef) :
    derefImage (dragPreviewStep h r dx dy) a
      = if a.imageRef = some r
          then (derefImage h a).map (translateImg dx dy)
          else derefImage h a := by
  cases ha : a.imageRef with
  | none => simp [derefImage, ha]
  | some k =>
    simp only [derefImage, ha, Option.some_bind, dragPreviewStep,
      modifyCell_getElem?, Option.some.injEq]

/-- C2 counterexample: a snapshot holding one image action was committed;
one pointer-move of the drag preview changes the observable content of
that committed snapshot (the element object it contains is mutated in
place), refuting the claim that no later operation ever mutates a
committed snapshot. -/
theorem drag_mutates_committed_snapshot :
    derefSnapshot (dragPreviewStep ⟨[⟨"img", ⟨0, 0⟩, 100, 100⟩]⟩ 0 5 5)
        [⟨Tool.image, [], "", 0, some 0⟩]
      ≠ derefSnapshot ⟨[⟨"img", ⟨0, 0⟩, 100, 100⟩]⟩
        [⟨Tool.image, [], "", 0, some 0⟩] := by
  decide

/-- C2 (amended): the drag preview mutates the selected element object in
place, so EVERY snapshot — committed ones included — that references it
observes the translation, while actions referencing other objects are
unaffected; and the pointer-up commit produces a fresh action sequence
that shares every element reference with the old one (the shallow spread
`{...selectedImage}` copies the `imageElement` reference, allocating no
new element object). -/
theorem drag_aliasing_semantics (h : Heap) (r : Nat) (dx dy : Int)
    (s : List ActionRef) (selected : ActionRef) :
    derefSnapshot (dragPreviewStep h r dx dy) s
      = s.map (fun a => if a.imageRef = some r
          then (derefImage h a).map (translateImg dx dy)
          else derefImage h a) ∧
    (commitDraggedActions s selected).map (fun a => a.imageRef)
      = s.map (fun a => a.imageRef) := by
  constructor
  · rw [derefSnapshot]
    exact List.map_congr_left (fun a _ => derefImage_drag h r dx dy a)
  · rw [commitDraggedActions, List.map_map]
    refine List.map_congr_left (fun a _ => ?_)
    by_cases hsel : a = selected <;> simp [hsel]

/-! ### Text-commit theorems -/

/-- C4 counterexample: a fresh text box (empty pre-fill) whose content is
still empty when the editor blurs.  `handleBlur` calls `saveActiveText`,
whose final `setActiveTextInput(null)` deactivates the editor on every
path — so the editor does NOT remain in editing state (and nothing is
committed), refuting the claim that an empty new box survives blur. -/
theorem empty_new_text_blur_discards :
    (saveActiveText "" (some { position := ⟨3, 4⟩, initialValue := "" })
        "Arial" 16 "#000000" emptyState).active = none ∧
    (saveActiveText "" (some { position := ⟨3, 4⟩, initialValue := "" })
        "Arial" 16 "#000000" emptyState).committed = none := by
  decide

/-- C4 (amended): commit-text case analysis as the code implements it.
(1) Re-editing an existing Text and confirming non-blank content that
differs from the pre-fill appends exactly one new Text element to the
snapshot from which the old Text was already removed when the re-edit
began. (2) The old Text element is no longer in that snapshot. (3) Blank
content never commits anything and ALWAYS deactivates the editor — a fresh
empty box is discarded on blur, not only on explicit cancel. -/
theorem text_commit_policy (v : String) (cur : DrawingState)
    (font color : String) (fontSize : Int)
    (hit : DrawingAction) (te : TextElement)
    (hte : hit.textElement = some te)
    (hv : jsTrim v ≠ "") (hdiff : v ≠ te.text) :
    saveActiveText v (some (beginReEdit cur hit te).2) font fontSize color
        (beginReEdit cur hit te).1
      = { committed := some
            { actions := cur.actions.filter (fun a => a ≠ hit) ++
                [{ tool := Tool.text, points := [], color := color,
                   lineWidth := 0,
                   textElement := some ⟨v, te.position, font, fontSize, color⟩,
                   imageElement := none }],
              currentAction := none },
          active := none, inputValue := "" } ∧
    hit ∉ (beginReEdit cur hit te).1.actions ∧
    (∀ w : String, jsTrim w = "" →
        ∀ ati : ActiveTextInput,
          saveActiveText w (some ati) font fontSize color cur
            = { committed := none, active := none, inputValue := w }) := by
  refine ⟨?_, ?_, ?_⟩
  · simp [saveActiveText, beginReEdit, hv, hdiff]
  · simp [beginReEdit, List.mem_filter]
  · intro w hw ati
    simp [saveActiveText, hw]

/-- Witness for `text_commit_policy`: re-editing the committed `old` text
to `new`. -/
theorem text_commit_policy_witness :
    (textHitAction.textElement = some oldTe ∧ jsTrim "new" ≠ ""
      ∧ "new" ≠ oldTe.text) ∧
    textHitAction ∉
      (beginReEdit ⟨[textHitAction], none⟩ textHitAction oldTe).1.actions :=
  ⟨⟨rfl, by decide, by decide⟩,
    (text_commit_policy "new" ⟨[textHitAction], none⟩ "Arial" "#000000" 16
      textHitAction oldTe rfl (by decide) (by decide)).2.1⟩

/-! ### Document-session theorems -/

/-- C6 counterexample: deleting the only document of a session yields an
empty document list and a `null` current id — not a fresh empty document —
refuting the claim that a session can never reach zero documents. -/
theorem delete_last_doc_claim_false :
    (handleDeleteDocument ⟨[soleDoc], some "doc_1"⟩ "doc_1").documents = [] ∧
    (handleDeleteDocument ⟨[soleDoc], some "doc_1"⟩ "doc_1").currentDocumentId
      = none := by
  decide

/-- C6 (amended): deleting the only document of a session leaves the
session with ZERO documents and no current document id (the application
then renders a dedicated `No Document Selected` placeholder); no fresh
document is created. -/
theorem delete_last_doc_empties_session (s : Session) (d : AppDoc)
    (hdocs : s.documents = [d]) :
    handleDeleteDocument s d.id
      = { documents := [], currentDocumentId := none } := by
  have hfilter : s.documents.filter (fun x => x.id ≠ d.id) = [] := by
    rw [hdocs]
    simp
  rw [handleDeleteDocument, hfilter]

/-- Witness for `delete_last_doc_empties_session`. -/
theorem delete_last_doc_empties_session_witness :
    (⟨[soleDoc], some "doc_1"⟩ : Session).documents = [soleDoc] ∧
    handleDeleteDocument (⟨[soleDoc], some "doc_1"⟩ : Session) soleDoc.id
      = { documents := [], currentDocumentId := none } :=
  ⟨rfl, delete_last_doc_empties_session ⟨[soleDoc], some "doc_1"⟩ soleDoc rfl⟩

/-! ### Peer-map lemmas -/

theorem mapSet_idem (m : List (String × CollaborationUser)) (k : String)
    (v : CollaborationUser) :
    mapSet (mapSet m k v) k v = mapSet m k v := by
  by_cases hmem : m.any (fun p => p.1 = k)
  · have hinner : mapSet m k v = m.map (fun p => if p.1 = k then (k, v) else p) := by
      rw [mapSet, if_pos hmem]
    have hmem2 : (m.map (fun p => if p.1 = k then (k, v) else p)).any
        (fun p => p.1 = k) := by
      rw [List.any_map]
      rw [List.any_eq_true] at hmem ⊢
      obtain ⟨p, hp, hpk⟩ := hmem
      refine ⟨p, hp, ?_⟩
      simp only [decide_eq_true_eq] at hpk
      simp [Function.comp, hpk]
    rw [hinner, mapSet, if_pos hmem2, List.map_map]
    refine List.map_congr_left (fun p _ => ?_)
    by_cases hpk : p.1 = k <;> simp [hpk]
  · have hinner : mapSet m k v = m ++ [(k, v)] := by
      rw [mapSet, if_neg hmem]
    have hmem2 : ((m ++ [(k, v)]).any (fun p => p.1 = k)) := by
      simp
    rw [hinner, mapSet, if_pos hmem2, List.map_append]
    have hnone : ∀ p ∈ m, (if p.1 = k then (k, v) else p) = p := by
      intro p hp
      have hpk : ¬ p.1 = k := by
        simp only [List.any_eq_true, decide_eq_true_eq, not_exists, not_and] at hmem
        exact hmem p hp
      simp [hpk]
    rw [List.map_congr_left hnone]
    simp

theorem countKey_eq_zero (m : List (String × CollaborationUser)) (k : String)
    (h : ∀ p ∈ m, p.1 ≠ k) : countKey m k = 0 := by
  rw [countKey, List.length_eq_zero, List.filter_eq_nil_iff]
  intro p hp
  simp [h p hp]

theorem countKey_mapSet (m : List (String × CollaborationUser)) (k : String)
    (v : CollaborationUser)
    (hnodup : (m.map (fun p => p.1)).Nodup) :
    countKey (mapSet m k v) k = 1 := by
  induction m with
  | nil => simp [mapSet, countKey]
  | cons p m ih =>
    rw [List.map_cons, List.nodup_cons] at hnodup
    obtain ⟨hp1, hnd⟩ := hnodup
    by_cases hpk : p.1 = k
    · have hany : ((p :: m).any (fun q => q.1 = k)) := by
        simp [hpk]
      rw [mapSet, if_pos hany, List.map_cons, if_pos hpk]
      have hzero : countKey (m.map (fun q => if q.1 = k then (k, v) else q)) k
          = 0 := by
        refine countKey_eq_zero _ _ (fun q hq => ?_)
        obtain ⟨q0, hq0, hq0e⟩ := List.mem_map.mp hq
        have hq0k : ¬ q0.1 = k := by
          intro he
          exact hp1 (by rw [hpk, ← he]; exact List.mem_map_of_mem _ hq0)
        rw [← hq0e, if_neg hq0k]
        exact hq0k
      rw [countKey, List.filter_cons, if_pos (by simp)]
      rw [countKey] at hzero
      simp [hzero]
    · by_cases hany : m.any (fun q => q.1 = k)
      · have hany2 : ((p :: m).any (fun q => q.1 = k)) := by
          rw [List.any_cons]
          simp [hany]
        rw [mapSet, if_pos hany2, List.map_cons, if_neg hpk]
        have hm : mapSet m k v = m.map (fun q => if q.1 = k then (k, v) else q) := by
          rw [mapSet, if_pos hany]
        rw [countKey, List.filter_cons, if_neg (by simp [hpk])]
        rw [← countKey, ← hm]
        exact ih hnd
      · have hany2 : ¬ ((p :: m).any (fun q => q.1 = k)) := by
          rw [List.any_cons]
          simp [hpk, hany]
        rw [mapSet, if_neg hany2, List.cons_append]
        have hm : mapSet m k v = m ++ [(k, v)] := by
          rw [mapSet, if_neg hany]
        rw [countKey, List.filter_cons, if_neg (by simp [hpk])]
        rw [← countKey, ← hm]
        exact ih hnd

/-- C7: delivering the same join envelope twice (overlapping transports)
leaves exactly what a single delivery leaves: the second application of
`handleCollaborationEvent` returns the same state and the same listener
calls, and the peer map holds exactly one entry for the joining user. -/
theorem bus_duplicate_join_tolerated (st : CollabState) (e : CollaborationEvent)
    (hjoin : e.type = "user_join")
    (hself : ¬ st.currentUser.map (fun u => u.id) = some e.userId)
    (hnodup : (st.connectedUsers.map (fun p => p.1)).Nodup) :
    handleCollaborationEvent (handleCollaborationEvent st e).1 e
        = handleCollaborationEvent st e ∧
    countKey (handleCollaborationEvent st e).1.connectedUsers e.userId = 1 := by
  have h1 : handleCollaborationEvent st e
      = ({ st with connectedUsers := mapSet st.connectedUsers e.userId e.data },
         [CallbackCall.usersChange (usersChangePayload
            { st with connectedUsers := mapSet st.connectedUsers e.userId e.data })]) := by
    rw [handleCollaborationEvent, if_neg hself, if_pos hjoin]
  constructor
  · rw [h1]
    rw [handleCollaborationEvent, if_neg hself, if_pos hjoin]
    simp [mapSet_idem]
  · rw [h1]
    exact countKey_mapSet _ _ _ hnodup

/-- Witness for `bus_duplicate_join_tolerated`: a join for `user_3`
arriving at `connectedState`. -/
theorem bus_duplicate_join_tolerated_witness :
    (joinEnvelope.type = "user_join" ∧
      ¬ connectedState.currentUser.map (fun u => u.id) = some joinEnvelope.userId ∧
      (connectedState.connectedUsers.map (fun p => p.1)).Nodup) ∧
    countKey (handleCollaborationEvent connectedState joinEnvelope).1.connectedUsers
        joinEnvelope.userId = 1 :=
  ⟨⟨rfl, by decide, by decide⟩,
    (bus_duplicate_join_tolerated connectedState joinEnvelope rfl
      (by decide) (by decide)).2⟩

/-- C8: what `disconnect` actually does on a connected session.  The leave
envelope is emitted and the session state is cleared, and the
`BroadcastChannel` and `WebSocket` are closed — but the `storage` listener
and the 1-second poll interval remain installed: `setupStorageListener`
discards the id returned by `setInterval`, and `disconnect` contains no
`clearInterval`/`removeEventListener`, so the poll keeps firing after
disconnect (each tick a no-op only because `shareId` is `null`). -/
theorem disconnect_keeps_poll_timer_installed :
    ((disconnect connectedState 1000).1.shareId = none ∧
     (disconnect connectedState 1000).1.currentUser = none ∧
     (disconnect connectedState 1000).1.connectedUsers = [] ∧
     (disconnect connectedState 1000).1.broadcastChannelOpen = false ∧
     (disconnect connectedState 1000).1.websocketOpen = false ∧
     (disconnect connectedState 1000).2
        = [{ type := "user_leave", userId := "user_1",
             data := ⟨"user_1", "Host", "#FF6B6B"⟩, timestamp := 1000 }]) ∧
    (disconnect connectedState 1000).1.pollTimerInstalled = true ∧
    (disconnect connectedState 1000).1.storageListenerInstalled = true := by
  decide

/-- C9: after cleanup at most 10 event keys remain for the share id — but
the retained ones are NOT the most recent.  The comparator key
`parseInt(key.split('_')[3])` lands on the literal `share` fragment of the
share id (every generated share id starts with `share_`), so it is `NaN
|| 0 = 0` for every key, the stable sort preserves enumeration order, and
`slice(10)` removes the enumeration tail: with eleven stored keys
enumerated oldest first, the pruned envelope is the NEWEST (embedded
timestamp 10) while an older one (timestamp 0) is retained. -/
theorem cleanup_keeps_first_ten_not_newest :
    (∀ (sid : String) (keys : List String),
        (cleanupOldEvents sid keys).1.length ≤ 10) ∧
    sortTime (makeEventKey "share_ab" "9999" "n") = 0 ∧
    (cleanupOldEvents "share_ab" elevenEventKeys).2
      = [makeEventKey "share_ab" "10" "n"] ∧
    makeEventKey "share_ab" "0" "n" ∈ (cleanupOldEvents "share_ab" elevenEventKeys).1 := by
  refine ⟨?_, by decide, by decide, by decide⟩
  intro sid keys
  simp only [cleanupOldEvents, List.length_take]
  omega

/-- C10: an inbound envelope whose `userId` is the local user's id is a
complete no-op: the guard on line 304 returns before any branch, so the
state (peer map included) is unchanged and no event or presence callback
runs — a client never applies its own echoed events. -/
theorem self_echo_noop (st : CollabState) (e : CollaborationEvent)
    (u : CollaborationUser) (hu : st.currentUser = some u)
    (hid : e.userId = u.id) :
    handleCollaborationEvent st e = (st, []) := by
  have hguard : st.currentUser.map (fun x => x.id) = some e.userId := by
    rw [hu, hid]
    rfl
  rw [handleCollaborationEvent, if_pos hguard]

/-- Witness for `self_echo_noop`: the echo of a locally published drawing
event arriving back at `connectedState`. -/
theorem self_echo_noop_witness :
    (connectedState.currentUser = some ⟨"user_1", "Host", "#FF6B6B"⟩ ∧
      selfEnvelope.userId = (⟨"user_1", "Host", "#FF6B6B"⟩ : CollaborationUser).id) ∧
    handleCollaborationEvent connectedState selfEnvelope = (connectedState, []) :=
  ⟨⟨rfl, rfl⟩,
    self_echo_noop connectedState selfEnvelope ⟨"user_1", "Host", "#FF6B6B"⟩ rfl rfl⟩

end OpenCanvas
